import Mathlib

/-!
A shallow embedding of scripts/weekly_summary.py (buildbot-infra weekly report
generator) together with proofs about its table renderer, ticket summarizer,
pull-request classifier and report assembly.

Modelling conventions:
* Python exceptions (IndexError, KeyError, ValueError from strptime) are
  modelled by Option: a `none` result stands for a raised exception.
* A Python dict is modelled by `PyDict`: its list of keys (needed only where
  the code calls d.keys()) together with a lookup function returning `none`
  exactly on the keys the dict does not hold.
* Python's polymorphic str() on row keys is passed in as a parameter `strK`;
  cell values are modelled by `PyVal` (the script stores only ints and
  strings in cells) with `pyStr` playing the role of str().
* Python's polymorphic sorted() on the dict's keys (used only for the default
  row order / column order) is passed in as `sortK`, instantiated with an
  ascending sort at every call site, as in Python.
* Twisted deferred results are modelled by `DeferredResult`; a DeferredList
  built with fireOnOneErrback=True fails as soon as any of its inputs fails.
-/

namespace WeeklySummary

/-- A Python dict: the ordered key list (only consulted via d.keys()) and the
lookup function (d[k]); `none` models a KeyError. -/
structure PyDict (κ : Type) (ν : Type) where
  keys : List κ
  find : κ → Option ν

/-- A cell value stored in one of the script's dicts: an int or a string. -/
inductive PyVal where
  | int (n : Int)
  | str (s : String)
deriving DecidableEq

/-- Python str() on a cell value. -/
def pyStr : PyVal → String
  | .int n => toString n
  | .str s => s

/-- A row of a table dict: maps column names to cell values. -/
abbrev PyRow := PyDict String PyVal

/-- A field formatter as taken by tablify_dict: cell text, column width and
header label to either a formatted cell or None (modelled `none`), which
makes the cell be skipped. -/
def Fmt : Type := String → Nat → String → Option String

/-- List.mapM specialised to Option, written as plain structural recursion so
that it mirrors a Python for-loop that can raise. -/
def listMapM {α β : Type} (f : α → Option β) : List α → Option (List β)
  | [] => some []
  | a :: as => (f a).bind fun b => (listMapM f as).map fun bs => b :: bs

/-- List.foldlM specialised to Option, mirroring a stateful Python for-loop
that can raise. -/
def listFoldlM {α β : Type} (f : β → α → Option β) : β → List α → Option β
  | b, [] => some b
  | b, a :: as => (f b a).bind fun b' => listFoldlM f b' as

/-- ' ' * n -/
def spaces (n : Nat) : String := String.mk (List.replicate n ' ')

/-- '-' * n -/
def dashes (n : Nat) : String := String.mk (List.replicate n '-')

/-- Python str.ljust: pad on the right with spaces up to width w. -/
def ljust (s : String) (w : Nat) : String := s ++ spaces (w - s.length)

/-- Python str.rjust: pad on the left with spaces up to width w. -/
def rjust (s : String) (w : Nat) : String := spaces (w - s.length) ++ s

/-- Python sep.join(parts). -/
def pyJoin (sep : String) : List String → String
  | [] => ""
  | [x] => x
  | x :: y :: rest => x ++ sep ++ pyJoin sep (y :: rest)

/-- The default formatter of tablify_dict:
lambda c, size, header: c.rjust(size) if header else c.ljust(size).
An empty header string is falsy in Python. -/
def default_field_formatter : Fmt := fun c size header =>
  some (if header = "" then ljust c size else rjust c size)

/-- The bug-list formatter used for the itemized ticket and PR tables:
lambda c, size, header: c.ljust(size) if header else None. -/
def bug_list_formatter : Fmt := fun c size header =>
  if header = "" then none else some (ljust c size)

/-- Lexicographic less-or-equal on char lists, modelling Python 2 string
comparison. -/
def strLeChars : List Char → List Char → Bool
  | [], _ => true
  | _ :: _, [] => false
  | a :: as, b :: bs =>
      if a.toNat < b.toNat then true
      else if b.toNat < a.toNat then false
      else strLeChars as bs

/-- Ascending sort on string keys, modelling Python sorted() on str keys. -/
def pySortedStr (l : List String) : List String :=
  List.insertionSort (fun a b => strLeChars a.data b.data = true) l

/-- Ascending sort on int keys, modelling Python sorted() on int keys. -/
def pySortedNat (l : List Nat) : List Nat := List.insertionSort (· ≤ ·) l

/-- The rows variable of tablify_dict: row_order if given, else sorted keys. -/
def rowsOf {κ : Type} (sortK : List κ → List κ) (d : PyDict κ PyRow)
    (row_order : Option (List κ)) : List κ :=
  match row_order with
  | none => sortK d.keys
  | some ro => ro

/-- The cols variable of tablify_dict: col_order if given, else the sorted
keys of the first row's dict; rows[0] raises IndexError on an empty rows
list and d[rows[0]] raises KeyError when absent. -/
def colsOf {κ : Type} (d : PyDict κ PyRow) (rows : List κ)
    (col_order : Option (List String)) : Option (List String) :=
  match col_order with
  | none => rows[0]?.bind fun r0 => (d.find r0).map fun rd => pySortedStr rd.keys
  | some co => some co

/-- One iteration of the width loop of tablify_dict for row r: widen the
per-column widths by the row's cell text lengths and the trailing row-name
width by len(str(r)).  The accumulator is (per-column widths, row-name
width); Python keeps the row-name width as the final list element. -/
def tablify_width_step {κ : Type} (strK : κ → String) (d : PyDict κ PyRow)
    (cols : List String) (acc : List Nat × Nat) (r : κ) : Option (List Nat × Nat) :=
  (d.find r).bind fun rd =>
    (listMapM (fun cw => (rd.find cw.1).map fun v => max cw.2 (pyStr v).length)
        (cols.zip acc.1)).map
      fun ws => (ws, max acc.2 (strK r).length)

/-- The width computation of tablify_dict: start from the header label
lengths (and 0 for the row-name column) and widen over all rows. -/
def tablify_widths {κ : Type} (strK : κ → String) (d : PyDict κ PyRow)
    (rows : List κ) (cols : List String) : Option (List Nat × Nat) :=
  listFoldlM (tablify_width_step strK d cols) (cols.map String.length, 0) rows

/-- The header line of tablify_dict: a blank-labelled cell of row-name width
followed by each column header, formatted and joined, skipping cells the
formatter maps to None. -/
def tablify_header (fmt : Fmt) (cols : List String) (ws : List Nat)
    (wlast : Nat) (padding : String) : String :=
  pyJoin padding
    ((fmt "" wlast "" :: (cols.zip ws).map fun cw => fmt cw.1 cw.2 cw.1).filterMap id)

/-- One body line of tablify_dict for row r. -/
def tablify_row {κ : Type} (strK : κ → String) (fmt : Fmt) (d : PyDict κ PyRow)
    (cols : List String) (ws : List Nat) (wlast : Nat) (padding : String)
    (r : κ) : Option String :=
  (d.find r).bind fun rd =>
    (listMapM (fun cw => (rd.find cw.1).map fun v => fmt (pyStr v) cw.2 cw.1)
        (cols.zip ws)).map
      fun cells =>
        pyJoin padding ((fmt (strK r) wlast "" :: cells).filterMap id)

/-- tablify_dict up to (but not including) the final '\n'.join: the list of
rendered lines (header first when shown, then one line per row). -/
def tablify_rows {κ : Type} (strK : κ → String) (sortK : List κ → List κ)
    (d : PyDict κ PyRow) (show_header : Bool) (field_formatter : Option Fmt)
    (row_order : Option (List κ)) (col_order : Option (List String))
    (col_padding : Nat) : Option (List String) :=
  let fmt := field_formatter.getD default_field_formatter
  let rows := rowsOf sortK d row_order
  (colsOf d rows col_order).bind fun cols =>
    (tablify_widths strK d rows cols).bind fun wp =>
      let padding := spaces col_padding
      (listMapM (tablify_row strK fmt d cols wp.1 wp.2 padding) rows).map
        fun body =>
          (if show_header then [tablify_header fmt cols wp.1 wp.2 padding] else []) ++ body

/-- tablify_dict itself: the rendered lines joined with newlines; `none`
models a raised exception. -/
def tablify_dict {κ : Type} (strK : κ → String) (sortK : List κ → List κ)
    (d : PyDict κ PyRow) (show_header : Bool) (field_formatter : Option Fmt)
    (row_order : Option (List κ)) (col_order : Option (List String))
    (col_padding : Nat) : Option String :=
  (tablify_rows strK sortK d show_header field_formatter row_order col_order
      col_padding).map (pyJoin "\n")

/-- A ticket record as built by format_trac_tickets: id, summary, type, url. -/
structure TracTicket where
  id : String
  summary : String
  type : String
  url : String
deriving DecidableEq

/-- http://trac.buildbot.net -/
def TRAC_BUILDBOT_URL : String := "http://trac.buildbot.net"

/-- TRAC_BUILDBOT_TICKET_URL % ticket -/
def tracTicketUrl (id : String) : String := TRAC_BUILDBOT_URL ++ "/ticket/" ++ id

/-- An {'Opened': _, 'Closed': _} counter pair. -/
structure Counts where
  opened : Nat
  closed : Nat
deriving DecidableEq

/-- The ticket_summary dict of summarize_trac_tickets: one counter pair per
fixed category name. -/
structure TicketSummary where
  enhancements : Counts
  defects : Counts
  tasks : Counts
  regressions : Counts
  undecideds : Counts
  other : Counts
  total : Counts
deriving DecidableEq

/-- The fresh all-zero ticket_summary. -/
def initTicketSummary : TicketSummary :=
  { enhancements := ⟨0, 0⟩, defects := ⟨0, 0⟩, tasks := ⟨0, 0⟩,
    regressions := ⟨0, 0⟩, undecideds := ⟨0, 0⟩, other := ⟨0, 0⟩, total := ⟨0, 0⟩ }

/-- The key set of the ticket_summary dict, in insertion order. -/
def tracKeys : List String :=
  ["Enhancements", "Defects", "Tasks", "Regressions", "Undecideds", "Other", "Total"]

/-- The six classification buckets (all ticket_summary keys except Total). -/
def sixCategories : List String :=
  ["Enhancements", "Defects", "Tasks", "Regressions", "Undecideds", "Other"]

/-- each_type[what] += 1: a KeyError (modelled none) unless what is one of
the two keys Opened and Closed. -/
def cBump (c : Counts) (what : String) : Option Counts :=
  if what = "Opened" then some { c with opened := c.opened + 1 }
  else if what = "Closed" then some { c with closed := c.closed + 1 }
  else none

/-- ticket_summary[key][what] += 1 for one of the seven existing keys. -/
def tsBump (s : TicketSummary) (key what : String) : Option TicketSummary :=
  if key = "Enhancements" then (cBump s.enhancements what).map fun c => { s with enhancements := c }
  else if key = "Defects" then (cBump s.defects what).map fun c => { s with defects := c }
  else if key = "Tasks" then (cBump s.tasks what).map fun c => { s with tasks := c }
  else if key = "Regressions" then (cBump s.regressions what).map fun c => { s with regressions := c }
  else if key = "Undecideds" then (cBump s.undecideds what).map fun c => { s with undecideds := c }
  else if key = "Other" then (cBump s.other what).map fun c => { s with other := c }
  else if key = "Total" then (cBump s.total what).map fun c => { s with total := c }
  else none

/-- Python 2 str.capitalize(): first character uppercased, the rest
lowercased. -/
def pythonCapitalize (s : String) : String :=
  match s.data with
  | [] => ""
  | c :: cs => String.mk (c.toUpper :: cs.map Char.toLower)

/-- The body of the ticket loop of summarize_trac_tickets for one ticket:
bump the bucket named t.type.capitalize() + "s" when the ticket_summary dict
holds that key, else the Other bucket, and always bump Total. -/
def addTicket (s : TicketSummary) (what : String) (t : TracTicket) :
    Option TicketSummary :=
  let ty := pythonCapitalize t.type ++ "s"
  ((if ty ∈ tracKeys then tsBump s ty what else tsBump s "Other" what).bind
    fun s1 => tsBump s1 "Total" what)

/-- The classification bucket a ticket lands in: its pluralised capitalised
type when that names one of the six categories, else Other. -/
def catOf (t : TracTicket) : String :=
  let ty := pythonCapitalize t.type ++ "s"
  if ty ∈ sixCategories then ty else "Other"

/-- The closed form of addTicket with what = "Opened": bump the Opened count
of bucket k and of Total. -/
def addOpenedFn (s : TicketSummary) (k : String) : TicketSummary :=
  if k = "Enhancements" then
    { s with enhancements := { s.enhancements with opened := s.enhancements.opened + 1 },
             total := { s.total with opened := s.total.opened + 1 } }
  else if k = "Defects" then
    { s with defects := { s.defects with opened := s.defects.opened + 1 },
             total := { s.total with opened := s.total.opened + 1 } }
  else if k = "Tasks" then
    { s with tasks := { s.tasks with opened := s.tasks.opened + 1 },
             total := { s.total with opened := s.total.opened + 1 } }
  else if k = "Regressions" then
    { s with regressions := { s.regressions with opened := s.regressions.opened + 1 },
             total := { s.total with opened := s.total.opened + 1 } }
  else if k = "Undecideds" then
    { s with undecideds := { s.undecideds with opened := s.undecideds.opened + 1 },
             total := { s.total with opened := s.total.opened + 1 } }
  else
    { s with other := { s.other with opened := s.other.opened + 1 },
             total := { s.total with opened := s.total.opened + 1 } }

/-- The closed form of addTicket with what = "Closed". -/
def addClosedFn (s : TicketSummary) (k : String) : TicketSummary :=
  if k = "Enhancements" then
    { s with enhancements := { s.enhancements with closed := s.enhancements.closed + 1 },
             total := { s.total with closed := s.total.closed + 1 } }
  else if k = "Defects" then
    { s with defects := { s.defects with closed := s.defects.closed + 1 },
             total := { s.total with closed := s.total.closed + 1 } }
  else if k = "Tasks" then
    { s with tasks := { s.tasks with closed := s.tasks.closed + 1 },
             total := { s.total with closed := s.total.closed + 1 } }
  else if k = "Regressions" then
    { s with regressions := { s.regressions with closed := s.regressions.closed + 1 },
             total := { s.total with closed := s.total.closed + 1 } }
  else if k = "Undecideds" then
    { s with undecideds := { s.undecideds with closed := s.undecideds.closed + 1 },
             total := { s.total with closed := s.total.closed + 1 } }
  else
    { s with other := { s.other with closed := s.other.closed + 1 },
             total := { s.total with closed := s.total.closed + 1 } }

/-- One ticket of the loop of summarize_trac_tickets: bump the counters and
append the ticket to the opened (resp. closed) insertion-ordered dict when
the result label says Opened (resp. Closed). -/
def tracTicketStep (what : String)
    (st : TicketSummary × List TracTicket × List TracTicket) (t : TracTicket) :
    Option (TicketSummary × List TracTicket × List TracTicket) :=
  (addTicket st.1 what t).map fun s' =>
    (s',
      (if what = "Opened" then st.2.1 ++ [t] else st.2.1),
      (if what = "Closed" then st.2.2 ++ [t] else st.2.2))

/-- One DeferredList result of the loop of summarize_trac_tickets: failed
entries are skipped, successful ones processed ticket by ticket. -/
def tracResultStep (st : TicketSummary × List TracTicket × List TracTicket)
    (res : Bool × String × List TracTicket) :
    Option (TicketSummary × List TracTicket × List TracTicket) :=
  if res.1 then listFoldlM (tracTicketStep res.2.1) st res.2.2 else some st

/-- The accumulation loop of summarize_trac_tickets over the DeferredList
results: skip failed entries, count every ticket, and collect the raw
Opened and Closed tickets in insertion order. -/
def tracLoop (results : List (Bool × String × List TracTicket)) :
    Option (TicketSummary × List TracTicket × List TracTicket) :=
  listFoldlM tracResultStep (initTicketSummary, [], []) results

/-- The invariant of the ticket summary: each Total counter is the sum of
the six category counters. -/
def totalIsSum (s : TicketSummary) : Prop :=
  s.total.opened = s.enhancements.opened + s.defects.opened + s.tasks.opened +
      s.regressions.opened + s.undecideds.opened + s.other.opened ∧
    s.total.closed = s.enhancements.closed + s.defects.closed + s.tasks.closed +
      s.regressions.closed + s.undecideds.closed + s.other.closed

/-- The row dict of one category in the ticket_summary table. -/
def countsRow (c : Counts) : PyRow :=
  ⟨["Opened", "Closed"], fun k =>
    if k = "Opened" then some (.int c.opened)
    else if k = "Closed" then some (.int c.closed)
    else none⟩

/-- The ticket_summary dict as passed to tablify_dict. -/
def summaryDict (s : TicketSummary) : PyDict String PyRow :=
  ⟨tracKeys, fun k =>
    if k = "Enhancements" then some (countsRow s.enhancements)
    else if k = "Defects" then some (countsRow s.defects)
    else if k = "Tasks" then some (countsRow s.tasks)
    else if k = "Regressions" then some (countsRow s.regressions)
    else if k = "Undecideds" then some (countsRow s.undecideds)
    else if k = "Other" then some (countsRow s.other)
    else if k = "Total" then some (countsRow s.total)
    else none⟩

/-- The row_order of the ticket summary table. -/
def trac_row_order : List String :=
  ["Enhancements", "Defects", "Regressions", "Tasks", "Undecideds", "Other", "Total"]

/-- The row dict of one ticket in the itemized lists. -/
def ticketRow (t : TracTicket) : PyRow :=
  ⟨["id", "summary", "type", "url"], fun c =>
    if c = "id" then some (.str t.id)
    else if c = "summary" then some (.str t.summary)
    else if c = "type" then some (.str t.type)
    else if c = "url" then some (.str t.url)
    else none⟩

/-- The opened/closed dict of summarize_trac_tickets: tickets keyed by
0-based insertion index. -/
def ticketDict (ts : List TracTicket) : PyDict Nat PyRow :=
  ⟨List.range ts.length, fun i => ts[i]?.map ticketRow⟩

/-- summarize_trac_tickets: count and collect the tickets, then render the
count table and the two itemized lists into the labelled trac text block. -/
def summarize_trac_tickets (results : List (Bool × String × List TracTicket)) :
    Option (String × String) :=
  (tracLoop results).bind fun st =>
    (tablify_dict id pySortedStr (summaryDict st.1) true none (some trac_row_order)
        (some ["Opened", "Closed"]) 2).bind fun ticket_table =>
      let ticket_overview := pyJoin "\n" ["Ticket Summary", dashes 14, ticket_table]
      (tablify_dict toString pySortedNat (ticketDict st.2.1) false (some bug_list_formatter)
          none (some ["id", "type", "summary", "url"]) 2).bind fun opened_table =>
        let opened_overview := pyJoin "\n" ["New/Reopened Tickets", dashes 20, opened_table]
        (tablify_dict toString pySortedNat (ticketDict st.2.2) false (some bug_list_formatter)
            none (some ["id", "type", "summary", "url"]) 2).map fun closed_table =>
          let closed_overview := pyJoin "\n" ["Closed Tickets", dashes 14, closed_table]
          ("trac", pyJoin "\n\n" [ticket_overview, opened_overview, closed_overview])

/-- The outcome of a Twisted deferred: a delivered value or a failure. -/
inductive DeferredResult (α : Type) where
  | success (v : α)
  | failure
deriving DecidableEq

/-- defer.DeferredList(ds, fireOnOneErrback=True, consumeErrors=True): the
list errbacks as soon as any input fails, else it calls back with the list
of (True, value) pairs. -/
def deferredListFF {α : Type} (ds : List (DeferredResult α)) :
    DeferredResult (List (Bool × α)) :=
  if ds.any (fun d => match d with | .failure => true | .success _ => false) then
    .failure
  else
    .success (ds.filterMap fun d => match d with
      | .success v => some (true, v)
      | .failure => none)

/-- get_trac_tickets after both sub-requests settle: the fail-fast
DeferredList over the new/reopened and closed fetches, with
summarize_trac_tickets as its callback (a raise inside the callback also
fails the deferred). -/
def getTracResult (newR closedR : DeferredResult (String × List TracTicket)) :
    DeferredResult (String × String) :=
  match deferredListFF [newR, closedR] with
  | .failure => .failure
  | .success results =>
      match summarize_trac_tickets results with
      | some v => .success v
      | none => .failure

/-- A calendar date; compared lexicographically like Python datetime.date. -/
structure PyDate where
  year : Nat
  month : Nat
  day : Nat
deriving DecidableEq

/-- date ordering, as in Python. -/
def pydateLt (a b : PyDate) : Bool :=
  a.year < b.year ||
    (a.year = b.year && (a.month < b.month ||
      (a.month = b.month && a.day < b.day)))

/-- The result of datetime.strptime on a GitHub timestamp. -/
structure GhDateTime where
  year : Nat
  month : Nat
  day : Nat
  hour : Nat
  minute : Nat
  second : Nat
deriving DecidableEq

/-- datetime.date(): drop the time-of-day part. -/
def GhDateTime.date (t : GhDateTime) : PyDate := ⟨t.year, t.month, t.day⟩

/-- The numeric value of a decimal digit character; none otherwise. -/
def digitVal (c : Char) : Option Nat :=
  if c.isDigit then some (c.toNat - '0'.toNat) else none

/-- datetime.strptime(s, '%Y-%m-%dT%H:%M:%SZ') on the zero-padded ISO8601
UTC strings the GitHub API returns; a failed parse is Python's ValueError,
modelled none. -/
def parseGhTime (s : String) : Option GhDateTime :=
  match s.data with
  | [y1, y2, y3, y4, '-', m1, m2, '-', d1, d2, 'T',
     h1, h2, ':', mi1, mi2, ':', s1, s2, 'Z'] =>
      (digitVal y1).bind fun a => (digitVal y2).bind fun b =>
      (digitVal y3).bind fun c => (digitVal y4).bind fun d =>
      (digitVal m1).bind fun e => (digitVal m2).bind fun f =>
      (digitVal d1).bind fun g => (digitVal d2).bind fun h =>
      (digitVal h1).bind fun i => (digitVal h2).bind fun j =>
      (digitVal mi1).bind fun k => (digitVal mi2).bind fun l =>
      (digitVal s1).bind fun m => (digitVal s2).bind fun n =>
        let mo := e * 10 + f
        let dy := g * 10 + h
        let hr := i * 10 + j
        let mi := k * 10 + l
        let se := m * 10 + n
        if 1 ≤ mo && mo ≤ 12 && 1 ≤ dy && dy ≤ 31 && hr ≤ 23 && mi ≤ 59 && se ≤ 61 then
          some ⟨((a * 10 + b) * 10 + c) * 10 + d, mo, dy, hr, mi, se⟩
        else none
  | _ => none

/-- A pull-request record as consumed by summarize_github_prs.  The GitHub
JSON object has more fields; only these are read.  created_at and closed_at
hold the raw timestamp strings (None modelled none). -/
structure PR where
  state : String
  created_at : Option String
  closed_at : Option String
  number : Int
  title : String
  html_url : String
deriving DecidableEq, Inhabited

/-- One group test of the classification loop of summarize_github_prs: when
the record's state matches and the relevant timestamp is not None, parse it
(strptime; a bad string raises) and append the record unless its date falls
outside [start_day, end_day]. -/
def prGroupStep (start_day end_day : PyDate) (state : String)
    (whenField : PR → Option String) (acc : List PR) (pr : PR) :
    Option (List PR) :=
  if pr.state = state then
    match whenField pr with
    | some ts =>
        (parseGhTime ts).bind fun happened =>
          if pydateLt happened.date start_day || pydateLt end_day happened.date then
            some acc
          else
            some (acc ++ [pr])
    | none => some acc
  else some acc

/-- One record of the classification loop: test the Opened group, then the
Completed group. -/
def prClassifyStep (start_day end_day : PyDate) (st : List PR × List PR)
    (pr : PR) : Option (List PR × List PR) :=
  (prGroupStep start_day end_day "open" (fun p => p.created_at) st.1 pr).bind
    fun op =>
      (prGroupStep start_day end_day "closed" (fun p => p.closed_at) st.2 pr).map
        fun cl => (op, cl)

/-- The classification loop of summarize_github_prs: each record is tested
against the Opened group (state open, created_at) and then the Completed
group (state closed, closed_at); dicts keyed by insertion index are
modelled as lists in insertion order. -/
def classifyPRs (start_day end_day : PyDate) (body : List PR) :
    Option (List PR × List PR) :=
  listFoldlM (prClassifyStep start_day end_day) ([], []) body

/-- The predicate a group's test imposes on a record: the state matches and
the relevant timestamp is present, parses, and falls inside the window. -/
def grpPredB (start_day end_day : PyDate) (state : String)
    (whenField : PR → Option String) (pr : PR) : Bool :=
  pr.state = state &&
    (match whenField pr with
     | some ts =>
         (match parseGhTime ts with
          | some t => !(pydateLt t.date start_day || pydateLt end_day t.date)
          | none => false)
     | none => false)

/-- The Opened-group predicate implied by the loop: state is open and the
created_at date parses and falls inside the window. -/
def openPredB (start_day end_day : PyDate) (pr : PR) : Bool :=
  grpPredB start_day end_day "open" (fun p => p.created_at) pr

/-- The Completed-group predicate implied by the loop. -/
def closedPredB (start_day end_day : PyDate) (pr : PR) : Bool :=
  grpPredB start_day end_day "closed" (fun p => p.closed_at) pr

/-- The columns of the itemized PR tables. -/
def ghCols : List String := ["number", "title", "html_url"]

/-- The row dict of one pull request (GitHub objects hold more keys; only
the consumed columns matter since col_order is always supplied here). -/
def prRowDict (pr : PR) : PyRow :=
  ⟨ghCols, fun c =>
    if c = "number" then some (.int pr.number)
    else if c = "title" then some (.str pr.title)
    else if c = "html_url" then some (.str pr.html_url)
    else none⟩

/-- An opened/closed PR dict: records keyed by 0-based insertion index. -/
def prDict (prs : List PR) : PyDict Nat PyRow :=
  ⟨List.range prs.length, fun i => prs[i]?.map prRowDict⟩

/-- sorted(pr_dict.keys(), lambda a, b: cmp(b, a)): a descending sort. -/
def prSortDesc (l : List Nat) : List Nat := List.insertionSort (· ≥ ·) l

/-- The cell text of a pull request in column c. -/
def prCellStr (pr : PR) (c : String) : String :=
  if c = "number" then toString pr.number
  else if c = "title" then pr.title
  else if c = "html_url" then pr.html_url
  else ""

/-- The per-column widths of a PR table, accumulated over the rendered rows
(which run through the records in reverse insertion order). -/
def prColWidths (prs : List PR) : List Nat :=
  prs.reverse.foldl
    (fun ws pr => (ghCols.zip ws).map fun cw => max cw.2 (prCellStr pr cw.1).length)
    (ghCols.map String.length)

/-- One rendered line of a PR table: the three cells left-justified and
joined by two spaces; the row-key cell is skipped by bug_list_formatter. -/
def prLine (ws : List Nat) (pr : PR) : String :=
  pyJoin (spaces 2) ((ghCols.zip ws).map fun cw => ljust (prCellStr pr cw.1) cw.2)

/-- The line list of one itemized PR table as summarize_github_prs builds
it: no header, descending row order, fixed columns, padding 2. -/
def prTableRows (prs : List PR) : Option (List String) :=
  tablify_rows toString pySortedNat (prDict prs) false (some bug_list_formatter)
    (some (prSortDesc (List.range prs.length))) (some ghCols) 2

/-- One itemized PR table as a string. -/
def prTable (prs : List PR) : Option String := (prTableRows prs).map (pyJoin "\n")

/-- summarize_github_prs on a parsed response body: classify, then render
the Opened and Completed tables into the labelled github text block. -/
def summarize_github_prs (start_day end_day : PyDate) (body : List PR) :
    Option (String × String) :=
  (classifyPRs start_day end_day body).bind fun st =>
    (prTable st.1).bind fun t1 =>
      (prTable st.2).map fun t2 =>
        ("github",
          pyJoin "\n\n"
            [pyJoin "\n" ["Opened Pull Requests", dashes 20, t1],
             pyJoin "\n" ["Completed Pull Requests", dashes 23, t2]])

/-- The summary callback of main: build message_parts from the successful
results and interpolate the fixed template; a missing trac or github part
is Python's KeyError from the % operator, modelled none. -/
def summaryPrint (results : List (Bool × String × String)) : Option String :=
  let parts := results.foldl
    (fun (m : String → Option String) p =>
      if p.1 then fun k => if k = p.2.1 then some p.2.2 else m k else m)
    (fun _ => none)
  (parts "trac").bind fun trac =>
    (parts "github").map fun github =>
      "Trac Tickets\n============\n" ++ trac ++
        "\n\n\nGitHub Pull Requests\n====================\n" ++ github

/-- main after both pipelines settle: the fail-fast DeferredList over the
trac and github pipelines with callbacks summary, then log.err (an errback
that consumes any failure), then reactor.stop.  The first component is what
gets printed (none when the summary callback never ran or raised); the
second is whether reactor.stop was reached, which every path does. -/
def mainRun (tracR ghR : DeferredResult (String × String)) :
    Option String × Bool :=
  match deferredListFF [tracR, ghR] with
  | .failure => (none, true)
  | .success results =>
      match summaryPrint results with
      | some s => (some s, true)
      | none => (none, true)

/-! Concrete inputs used by the example theorems and witnesses below. -/

/-- An empty row mapping. -/
def emptyRowDict : PyDict String PyRow := ⟨[], fun _ => none⟩

/-- The table of spec Scenario 4: longest row key 1000, one column Opened
whose widest value is 12. -/
def exTable9 : PyDict String PyRow :=
  ⟨["1000", "5"], fun k =>
    if k = "1000" then
      some ⟨["Opened"], fun c => if c = "Opened" then some (.int 12) else none⟩
    else if k = "5" then
      some ⟨["Opened"], fun c => if c = "Opened" then some (.int 3) else none⟩
    else none⟩

/-- A one-row one-column dict used by witnesses. -/
def exTableSmall : PyDict String PyRow :=
  ⟨["r"], fun k =>
    if k = "r" then some ⟨["c"], fun c => if c = "c" then some (.str "abc") else none⟩
    else none⟩

/-- Tickets of spec Scenario 1. -/
def exDefect1 : TracTicket := ⟨"1", "s1", "defect", "u1"⟩

/-- Second defect of spec Scenario 1. -/
def exDefect2 : TracTicket := ⟨"2", "s2", "defect", "u2"⟩

/-- The task ticket of spec Scenario 1. -/
def exTask : TracTicket := ⟨"3", "s3", "task", "u3"⟩

/-- A regression ticket used by the C2 witness. -/
def exRegression : TracTicket := ⟨"4", "s4", "regression", "u4"⟩

/-- The PR of spec Scenario 2 with created_at inside the window. -/
def exPrIn : PR := ⟨"open", some "2024-01-10T00:00:00Z", none, 1, "T", "U"⟩

/-- The PR of spec Scenario 2 with created_at before the window. -/
def exPrOut : PR := ⟨"open", some "2024-01-01T00:00:00Z", none, 1, "T", "U"⟩

/-- The window of spec Scenario 2. -/
def exWinStart : PyDate := ⟨2024, 1, 8⟩

/-- End of the window of spec Scenario 2. -/
def exWinEnd : PyDate := ⟨2024, 1, 14⟩

/-!  Theorems.  -/

/-- C3 counterexample: with the trac pipeline failed and the github pipeline
delivering its block, main prints nothing at all (rather than a report
containing the surviving GitHub section): the fail-fast DeferredList
errbacks past the summary callback. -/
theorem main_fail_fast_cex :
    (mainRun .failure (.success ("github", "G"))).1 = none := rfl

/-- C3 (amended): when exactly one of the two top-level pipelines fails, no
report is printed (the summary callback is skipped by the fail-fast
DeferredList; the errback consumes the failure) and the program still
reaches reactor.stop. -/
theorem main_fail_fast_no_partial_report :
    ∀ v : String × String,
      mainRun .failure (.success v) = (none, true) ∧
      mainRun (.success v) .failure = (none, true) := by
  intro v
  exact ⟨rfl, rfl⟩

/-- C4 counterexample: with the new/reopened request delivering one ticket
and the closed request failing, the whole tracker operation fails;
summarize_trac_tickets never contributes the surviving branch. -/
theorem trac_pipeline_fail_fast_cex :
    getTracResult (.success ("Opened", [exDefect1])) .failure = .failure := rfl

/-- C4 (amended): the tracker DeferredList is built with
fireOnOneErrback=True, so if either of the two network requests fails the
whole tracker operation fails and summarize_trac_tickets is not run on the
surviving branch; only when both succeed does summarize_trac_tickets run,
on both results. -/
theorem trac_pipeline_fail_fast :
    (∀ v, getTracResult (.success v) .failure = .failure) ∧
    (∀ v, getTracResult .failure (.success v) = .failure) ∧
    (∀ a b, getTracResult (.success a) (.success b) =
        match summarize_trac_tickets [(true, a), (true, b)] with
        | some v => .success v
        | none => .failure) := by
  refine ⟨fun v => rfl, fun v => rfl, fun a b => rfl⟩

/-- C8 counterexample: an empty row mapping with row_order=[] but col_order
left at None raises (rows[0] is an IndexError) instead of returning empty
or header-only output. -/
theorem tablify_empty_rows_cex :
    tablify_dict id pySortedStr emptyRowDict true none (some []) none 1 = none := rfl

/-- C8 (amended): with an empty row mapping and row_order=[], tablify_dict
returns header-only output (show_header) or the empty string whenever
col_order is supplied; but when col_order is None it raises an IndexError
evaluating rows[0]. -/
theorem tablify_empty_rows_behavior :
    ∀ {κ : Type} (strK : κ → String) (sortK : List κ → List κ)
      (d : PyDict κ PyRow) (sh : Bool) (fmt : Option Fmt)
      (co : List String) (p : Nat),
      tablify_dict strK sortK d sh fmt (some []) (some co) p =
        some (if sh then
                tablify_header (fmt.getD default_field_formatter) co
                  (co.map String.length) 0 (spaces p)
              else "") ∧
      tablify_dict strK sortK d sh fmt (some []) none p = none := by
  intro κ strK sortK d sh fmt co p
  cases sh <;> exact ⟨rfl, rfl⟩

/-- C9: the default formatter right-justifies exactly the cells carrying a
non-empty header label (all data and header cells) and left-justifies the
row-key column (blank header label), and on the Scenario 4 table (longest
row key 1000, column Opened with widest value 12) the rendered header row
starts with a blank row-key cell exactly four spaces wide. -/
theorem tablify_default_justification :
    (∀ c size header, default_field_formatter c size header =
        some (if header = "" then ljust c size else rjust c size)) ∧
    tablify_dict id pySortedStr exTable9 true none none none 1 =
      some "     Opened\n1000     12\n5         3" := by
  refine ⟨fun c size header => rfl, ?_⟩
  decide

/-- No pluralised type can collide with the Total key. -/
theorem append_s_ne_Total (x : String) : x ++ "s" ≠ "Total" := by
  intro h
  have h2 := congrArg String.data h
  rw [String.data_append] at h2
  have h3 := congrArg List.getLast? h2
  rw [show ("s" : String).data = ['s'] from rfl, List.getLast?_concat] at h3
  have h4 : (some 's' : Option Char) = some 'l' :=
    h3.trans (show ("Total" : String).data.getLast? = some 'l' from rfl)
  exact absurd h4 (by decide)

/-- The bucket of a ticket is always one of the six categories. -/
theorem catOf_mem (t : TracTicket) : catOf t ∈ sixCategories := by
  have hcat : catOf t = if pythonCapitalize t.type ++ "s" ∈ sixCategories
      then pythonCapitalize t.type ++ "s" else "Other" := rfl
  rw [hcat]
  by_cases h : pythonCapitalize t.type ++ "s" ∈ sixCategories
  · rw [if_pos h]
    exact h
  · rw [if_neg h]
    simp [sixCategories]

/-- addTicket with the Opened label never raises and bumps the Opened count
of the ticket's bucket and of Total. -/
theorem addTicket_opened (s : TicketSummary) (t : TracTicket) :
    addTicket s "Opened" t = some (addOpenedFn s (catOf t)) := by
  unfold addTicket catOf
  have hne : pythonCapitalize t.type ++ "s" ≠ "Total" := append_s_ne_Total _
  by_cases hmem : pythonCapitalize t.type ++ "s" ∈ tracKeys
  · have hc : pythonCapitalize t.type ++ "s" = "Enhancements" ∨
        pythonCapitalize t.type ++ "s" = "Defects" ∨
        pythonCapitalize t.type ++ "s" = "Tasks" ∨
        pythonCapitalize t.type ++ "s" = "Regressions" ∨
        pythonCapitalize t.type ++ "s" = "Undecideds" ∨
        pythonCapitalize t.type ++ "s" = "Other" ∨
        pythonCapitalize t.type ++ "s" = "Total" := by
      simpa [tracKeys] using hmem
    rcases hc with h | h | h | h | h | h | h <;>
      simp [h, hmem, tsBump, cBump, addOpenedFn, sixCategories, tracKeys] at hne ⊢
  · have hsix : pythonCapitalize t.type ++ "s" ∉ sixCategories := by
      intro h6
      apply hmem
      rcases (by simpa [sixCategories] using h6 :
          pythonCapitalize t.type ++ "s" = "Enhancements" ∨
          pythonCapitalize t.type ++ "s" = "Defects" ∨
          pythonCapitalize t.type ++ "s" = "Tasks" ∨
          pythonCapitalize t.type ++ "s" = "Regressions" ∨
          pythonCapitalize t.type ++ "s" = "Undecideds" ∨
          pythonCapitalize t.type ++ "s" = "Other") with
        h | h | h | h | h | h <;> simp [tracKeys, h]
    simp [hmem, hsix, tsBump, cBump, addOpenedFn]

/-- addTicket with the Closed label never raises and bumps the Closed count
of the ticket's bucket and of Total. -/
theorem addTicket_closed (s : TicketSummary) (t : TracTicket) :
    addTicket s "Closed" t = some (addClosedFn s (catOf t)) := by
  unfold addTicket catOf
  have hne : pythonCapitalize t.type ++ "s" ≠ "Total" := append_s_ne_Total _
  by_cases hmem : pythonCapitalize t.type ++ "s" ∈ tracKeys
  · have hc : pythonCapitalize t.type ++ "s" = "Enhancements" ∨
        pythonCapitalize t.type ++ "s" = "Defects" ∨
        pythonCapitalize t.type ++ "s" = "Tasks" ∨
        pythonCapitalize t.type ++ "s" = "Regressions" ∨
        pythonCapitalize t.type ++ "s" = "Undecideds" ∨
        pythonCapitalize t.type ++ "s" = "Other" ∨
        pythonCapitalize t.type ++ "s" = "Total" := by
      simpa [tracKeys] using hmem
    rcases hc with h | h | h | h | h | h | h <;>
      simp [h, hmem, tsBump, cBump, addClosedFn, sixCategories, tracKeys] at hne ⊢
  · have hsix : pythonCapitalize t.type ++ "s" ∉ sixCategories := by
      intro h6
      apply hmem
      rcases (by simpa [sixCategories] using h6 :
          pythonCapitalize t.type ++ "s" = "Enhancements" ∨
          pythonCapitalize t.type ++ "s" = "Defects" ∨
          pythonCapitalize t.type ++ "s" = "Tasks" ∨
          pythonCapitalize t.type ++ "s" = "Regressions" ∨
          pythonCapitalize t.type ++ "s" = "Undecideds" ∨
          pythonCapitalize t.type ++ "s" = "Other") with
        h | h | h | h | h | h <;> simp [tracKeys, h]
    simp [hmem, hsix, tsBump, cBump, addClosedFn]

/-- A label other than Opened or Closed makes addTicket raise a KeyError. -/
theorem addTicket_invalid (s : TicketSummary) (what : String) (t : TracTicket)
    (hO : what ≠ "Opened") (hC : what ≠ "Closed") :
    addTicket s what t = none := by
  unfold addTicket
  simp [tsBump, cBump, hO, hC]

/-- A successful addTicket is one of the two closed forms. -/
theorem addTicket_cases {s s' : TicketSummary} {what : String} {t : TracTicket}
    (h : addTicket s what t = some s') :
    (what = "Opened" ∧ s' = addOpenedFn s (catOf t)) ∨
      (what = "Closed" ∧ s' = addClosedFn s (catOf t)) := by
  by_cases hO : what = "Opened"
  · subst hO
    rw [addTicket_opened] at h
    exact Or.inl ⟨rfl, (Option.some.injEq _ _ ▸ h).symm⟩
  · by_cases hC : what = "Closed"
    · subst hC
      rw [addTicket_closed] at h
      exact Or.inr ⟨rfl, (Option.some.injEq _ _ ▸ h).symm⟩
    · rw [addTicket_invalid s what t hO hC] at h
      cases h

/-- addOpenedFn preserves the total-is-sum invariant. -/
theorem addOpenedFn_inv {s : TicketSummary} (hs : totalIsSum s) (t : TracTicket) :
    totalIsSum (addOpenedFn s (catOf t)) := by
  obtain ⟨h1, h2⟩ := hs
  have hm := catOf_mem t
  rcases (by simpa [sixCategories] using hm :
      catOf t = "Enhancements" ∨ catOf t = "Defects" ∨ catOf t = "Tasks" ∨
      catOf t = "Regressions" ∨ catOf t = "Undecideds" ∨ catOf t = "Other") with
    h | h | h | h | h | h <;>
    simp [h, addOpenedFn, totalIsSum] <;> omega

/-- addClosedFn preserves the total-is-sum invariant. -/
theorem addClosedFn_inv {s : TicketSummary} (hs : totalIsSum s) (t : TracTicket) :
    totalIsSum (addClosedFn s (catOf t)) := by
  obtain ⟨h1, h2⟩ := hs
  have hm := catOf_mem t
  rcases (by simpa [sixCategories] using hm :
      catOf t = "Enhancements" ∨ catOf t = "Defects" ∨ catOf t = "Tasks" ∨
      catOf t = "Regressions" ∨ catOf t = "Undecideds" ∨ catOf t = "Other") with
    h | h | h | h | h | h <;>
    simp [h, addClosedFn, totalIsSum] <;> omega

/-- The per-ticket inner loop preserves the total-is-sum invariant. -/
theorem tracTicketFold_inv (what : String) :
    ∀ (tickets : List TracTicket)
      (st res : TicketSummary × List TracTicket × List TracTicket),
      listFoldlM (tracTicketStep what) st tickets = some res →
      totalIsSum st.1 → totalIsSum res.1 := by
  intro tickets
  induction tickets with
  | nil =>
      intro st res h hs
      cases h
      exact hs
  | cons t ts ih =>
      intro st res h hs
      rw [listFoldlM] at h
      rcases hstep : tracTicketStep what st t with _ | st2
      · rw [hstep] at h
        cases h
      · rw [hstep] at h
        refine ih st2 res h ?_
        unfold tracTicketStep at hstep
        rcases hadd : addTicket st.1 what t with _ | s'
        · rw [hadd] at hstep
          cases hstep
        · rw [hadd] at hstep
          have h1 : st2.1 = s' := by
            cases hstep
            rfl
          rcases addTicket_cases hadd with ⟨_, hs'⟩ | ⟨_, hs'⟩
          · rw [h1, hs']
            exact addOpenedFn_inv hs t
          · rw [h1, hs']
            exact addClosedFn_inv hs t

/-- The outer result loop preserves the total-is-sum invariant. -/
theorem tracResultFold_inv :
    ∀ (results : List (Bool × String × List TracTicket))
      (st res : TicketSummary × List TracTicket × List TracTicket),
      listFoldlM tracResultStep st results = some res →
      totalIsSum st.1 → totalIsSum res.1 := by
  intro results
  induction results with
  | nil =>
      intro st res h hs
      cases h
      exact hs
  | cons r rs ih =>
      intro st res h hs
      rw [listFoldlM] at h
      rcases hstep : tracResultStep st r with _ | st2
      · rw [hstep] at h
        cases h
      · rw [hstep] at h
        refine ih st2 res h ?_
        unfold tracResultStep at hstep
        by_cases hb : r.1
        · rw [if_pos hb] at hstep
          exact tracTicketFold_inv r.2.1 r.2.2 st st2 hstep hs
        · rw [if_neg hb] at hstep
          cases hstep
          exact hs

/-- C2: whatever list of fetch results summarize_trac_tickets processes,
the Total counters of the resulting ticket summary equal the sums of the
six category counters (Opened and Closed separately). -/
theorem trac_total_sum_invariant :
    ∀ (results : List (Bool × String × List TracTicket))
      (s : TicketSummary) (op cl : List TracTicket),
      tracLoop results = some (s, op, cl) →
      s.total.opened = s.enhancements.opened + s.defects.opened + s.tasks.opened +
          s.regressions.opened + s.undecideds.opened + s.other.opened ∧
        s.total.closed = s.enhancements.closed + s.defects.closed + s.tasks.closed +
          s.regressions.closed + s.undecideds.closed + s.other.closed := by
  intro results s op cl h
  exact tracResultFold_inv results (initTicketSummary, [], []) (s, op, cl) h
    (by constructor <;> rfl)

/-- Witness for C2 at a concrete input: one successfully fetched Closed
regression ticket. -/
theorem trac_total_sum_invariant_witness :
    let s : TicketSummary := { initTicketSummary with
      regressions := ⟨0, 1⟩, total := ⟨0, 1⟩ }
    s.total.opened = s.enhancements.opened + s.defects.opened + s.tasks.opened +
        s.regressions.opened + s.undecideds.opened + s.other.opened ∧
      s.total.closed = s.enhancements.closed + s.defects.closed + s.tasks.closed +
        s.regressions.closed + s.undecideds.closed + s.other.closed :=
  trac_total_sum_invariant [(true, "Closed", [exRegression])]
    { initTicketSummary with regressions := ⟨0, 1⟩, total := ⟨0, 1⟩ }
    [] [exRegression] (by decide)

/-- C7: on three successfully fetched Opened tickets of types defect,
defect, task, the summary counts Defects.Opened=2, Tasks.Opened=1,
Total.Opened=3 and everything else 0; and in general a processed ticket
bumps exactly the bucket type.capitalize()+"s" (when that names one of the
six categories, else Other) together with Total, under its result label. -/
theorem trac_scenario_counts_and_buckets :
    tracLoop [(true, "Opened", [exDefect1, exDefect2, exTask])] =
      some ({ initTicketSummary with
                defects := ⟨2, 0⟩, tasks := ⟨1, 0⟩, total := ⟨3, 0⟩ },
            [exDefect1, exDefect2, exTask], []) ∧
    (∀ s t, addTicket s "Opened" t = some (addOpenedFn s (catOf t))) ∧
    (∀ s t, addTicket s "Closed" t = some (addClosedFn s (catOf t))) ∧
    (∀ t, catOf t = if pythonCapitalize t.type ++ "s" ∈ sixCategories
                    then pythonCapitalize t.type ++ "s" else "Other") :=
  ⟨by decide, addTicket_opened, addTicket_closed, fun t => rfl⟩

/-- A fold in Option whose every step succeeds computes the pure fold. -/
theorem listFoldlM_eq_some {α β : Type} (F : β → α → Option β) (G : β → α → β) :
    ∀ (xs : List α) (b : β), (∀ b' a, a ∈ xs → F b' a = some (G b' a)) →
      listFoldlM F b xs = some (xs.foldl G b) := by
  intro xs
  induction xs with
  | nil => intro b h; rfl
  | cons a as ih =>
      intro b h
      rw [listFoldlM, h b a (by simp), Option.some_bind, List.foldl_cons]
      exact ih (G b a) fun b' a' ha' => h b' a' (by simp [ha'])

/-- A map in Option whose every element succeeds computes the pure map. -/
theorem listMapM_eq_some {α β : Type} (f : α → Option β) (g : α → β) :
    ∀ xs : List α, (∀ a ∈ xs, f a = some (g a)) →
      listMapM f xs = some (xs.map g) := by
  intro xs
  induction xs with
  | nil => intro h; rfl
  | cons a as ih =>
      intro h
      rw [listMapM, h a (by simp), Option.some_bind,
        ih fun a' ha' => h a' (by simp [ha'])]
      rfl

/-- A successful map in Option preserves length and succeeds pointwise. -/
theorem listMapM_some_facts {α β : Type} {f : α → Option β} :
    ∀ {xs : List α} {ys : List β}, listMapM f xs = some ys →
      ys.length = xs.length ∧
        ∀ i (hx : i < xs.length) (hy : i < ys.length),
          f (xs.get ⟨i, hx⟩) = some (ys.get ⟨i, hy⟩) := by
  intro xs
  induction xs with
  | nil =>
      intro ys h
      rw [listMapM] at h
      cases h
      exact ⟨rfl, fun i hx hy => absurd hx (by simp)⟩
  | cons a as ih =>
      intro ys h
      rw [listMapM] at h
      rcases hfa : f a with _ | b
      · rw [hfa] at h
        cases h
      · rw [hfa, Option.some_bind] at h
        rcases hrec : listMapM f as with _ | bs
        · rw [hrec] at h
          cases h
        · rw [hrec] at h
          obtain ⟨hl, hfacts⟩ := ih hrec
          cases h
          refine ⟨by simp [hl], ?_⟩
          intro i hx hy
          cases i with
          | zero => simpa using hfa
          | succ j => simpa using hfacts j (by simpa using hx) (by simpa using hy)

/-- Reading every position of a list back in order gives the list. -/
theorem map_range_getD {α : Type} (d0 : α) :
    ∀ l : List α, (List.range l.length).map (fun i => l.getD i d0) = l := by
  intro l
  induction l with
  | nil => rfl
  | cons x xs ih =>
      rw [List.length_cons, List.range_succ_eq_map, List.map_cons, List.map_map]
      have h2 : ((fun i => (x :: xs).getD i d0) ∘ Nat.succ) = fun i => xs.getD i d0 := by
        funext i
        simp [List.getD_cons_succ]
      rw [h2, ih]
      rfl

/-- The first component of a pair fold whose first component only sees the
mapped element. -/
theorem foldl_pair_fst {α β γ : Type} (F1 : β → γ → β) (F2 : Nat → α → Nat)
    (g : α → γ) :
    ∀ (is : List α) (acc : β × Nat),
      (is.foldl (fun a x => (F1 a.1 (g x), F2 a.2 x)) acc).1 =
        (is.map g).foldl F1 acc.1 := by
  intro is
  induction is with
  | nil => intro acc; rfl
  | cons i is ih => intro acc; simpa using ih (F1 acc.1 (g i), F2 acc.2 i)

/-- The legacy-comparator sort of the PR row keys sorts 0..n-1 into
descending order, i.e. reverses them. -/
theorem prSortDesc_range (n : Nat) :
    prSortDesc (List.range n) = (List.range n).reverse := by
  have hs1 : List.Sorted (fun a b : Nat => a ≥ b) (prSortDesc (List.range n)) :=
    List.sorted_insertionSort _ _
  have hs2 : List.Sorted (fun a b : Nat => a ≥ b) ((List.range n).reverse) :=
    List.pairwise_reverse.mpr ((List.pairwise_lt_range n).imp fun h => le_of_lt h)
  exact List.eq_of_perm_of_sorted
    ((List.perm_insertionSort _ _).trans (List.reverse_perm _).symm) hs1 hs2

/-- Every consumed column of a PR row dict is present, with prCellStr as its
text. -/
theorem prRowDict_find (pr : PR) :
    ∀ c ∈ ghCols, ∃ v, (prRowDict pr).find c = some v ∧ pyStr v = prCellStr pr c := by
  intro c hc
  rcases (by simpa [ghCols] using hc :
      c = "number" ∨ c = "title" ∨ c = "html_url") with h | h | h <;> subst h
  · exact ⟨.int pr.number, rfl, rfl⟩
  · exact ⟨.str pr.title, rfl, rfl⟩
  · exact ⟨.str pr.html_url, rfl, rfl⟩

/-- Looking up a valid insertion index in a PR dict gives the row of the
record at that index. -/
theorem prDict_find {prs : List PR} {i : Nat} (hi : i < prs.length) :
    (prDict prs).find i = some (prRowDict (prs.getD i default)) := by
  show prs[i]?.map prRowDict = some (prRowDict (prs.getD i default))
  rw [List.getElem?_eq_getElem hi, List.getD_eq_getElem?_getD,
    List.getElem?_eq_getElem hi]
  rfl

/-- One width-loop step over a PR dict in closed form. -/
theorem prDict_width_step (prs : List PR) {i : Nat} (hi : i < prs.length)
    (acc : List Nat × Nat) :
    tablify_width_step toString (prDict prs) ghCols acc i =
      some ((ghCols.zip acc.1).map
              (fun cw => max cw.2 (prCellStr (prs.getD i default) cw.1).length),
            max acc.2 (toString i).length) := by
  unfold tablify_width_step
  rw [prDict_find hi, Option.some_bind]
  rw [listMapM_eq_some _
    (fun cw => max cw.2 (prCellStr (prs.getD i default) cw.1).length) _ ?_]
  · rfl
  · intro cw hcw
    obtain ⟨v, hv, hvs⟩ := prRowDict_find (prs.getD i default) cw.1 (List.of_mem_zip hcw).1
    rw [hv]
    simp [hvs]

/-- One rendered line over a PR dict in closed form: the bug-list formatter
skips the row-key cell and left-justifies the three record cells. -/
theorem prDict_row (prs : List PR) (ws : List Nat) (wl : Nat) {i : Nat}
    (hi : i < prs.length) :
    tablify_row toString bug_list_formatter (prDict prs) ghCols ws wl (spaces 2) i =
      some (prLine ws (prs.getD i default)) := by
  unfold tablify_row
  rw [prDict_find hi, Option.some_bind]
  rw [listMapM_eq_some _
    (fun cw => some (ljust (prCellStr (prs.getD i default) cw.1) cw.2)) _ ?_]
  · have hfm : ∀ (g : String × Nat → String) (l : List (String × Nat)),
        List.filterMap id (l.map fun cw => some (g cw)) = l.map g := by
      intro g l
      induction l with
      | nil => rfl
      | cons x xs ihx =>
          rw [List.map_cons,
            show List.filterMap id (some (g x) :: xs.map fun cw => some (g cw)) =
              g x :: List.filterMap id (xs.map fun cw => some (g cw)) from rfl,
            ihx, List.map_cons]
    have hnone : bug_list_formatter (toString i) wl "" = none := rfl
    rw [Option.map_some', hnone,
      show List.filterMap id (none :: (ghCols.zip ws).map fun cw =>
          some (ljust (prCellStr (prs.getD i default) cw.1) cw.2)) =
        List.filterMap id ((ghCols.zip ws).map fun cw =>
          some (ljust (prCellStr (prs.getD i default) cw.1) cw.2)) from rfl,
      hfm (fun cw => ljust (prCellStr (prs.getD i default) cw.1) cw.2)]
    rfl
  · intro cw hcw
    obtain ⟨v, hv, hvs⟩ := prRowDict_find (prs.getD i default) cw.1 (List.of_mem_zip hcw).1
    rcases (by simpa [ghCols] using (List.of_mem_zip hcw).1 :
        cw.1 = "number" ∨ cw.1 = "title" ∨ cw.1 = "html_url") with h | h | h <;>
      rw [hv] <;> simp [bug_list_formatter, h, hvs]

/-- C6: the rendered Opened/Completed PR tables list their rows in
descending insertion-key order, i.e. the reverse of the order the matching
records appeared in the API response. -/
theorem pr_table_reverse_insertion_order (prs : List PR) :
    prTableRows prs = some (prs.reverse.map (prLine (prColWidths prs))) := by
  have hrows : rowsOf pySortedNat (prDict prs)
      (some (prSortDesc (List.range prs.length))) = (List.range prs.length).reverse := by
    rw [rowsOf]
    exact prSortDesc_range _
  have hmem : ∀ i ∈ (List.range prs.length).reverse, i < prs.length := by
    intro i hi
    simpa using List.mem_reverse.mp hi
  have hbridge : ((List.range prs.length).reverse.map
      (fun i => prs.getD i default)) = prs.reverse := by
    rw [List.map_reverse, map_range_getD]
  have hsnd : ∀ (is : List Nat) (acc : List Nat × Nat),
      (is.foldl (fun a i =>
        ((ghCols.zip a.1).map
            (fun cw => max cw.2 (prCellStr (prs.getD i default) cw.1).length),
         max a.2 (toString i).length)) acc).2 =
      is.foldl (fun a i => max a (toString i).length) acc.2 := by
    intro is
    induction is with
    | nil => intro acc; rfl
    | cons j js ihj => intro acc; simpa using ihj _
  have hwidths : tablify_widths toString (prDict prs)
      ((List.range prs.length).reverse) ghCols =
      some (prColWidths prs,
        ((List.range prs.length).reverse.foldl
          (fun a i => max a (toString i).length) 0)) := by
    unfold tablify_widths
    rw [listFoldlM_eq_some _
      (fun a i =>
        ((ghCols.zip a.1).map
            (fun cw => max cw.2 (prCellStr (prs.getD i default) cw.1).length),
         max a.2 (toString i).length)) _ _
      (fun b' i hi => prDict_width_step prs (hmem i hi) b')]
    congr 1
    refine Prod.ext ?_ ?_
    · refine (foldl_pair_fst
        (fun ws pr => (ghCols.zip ws).map fun cw => max cw.2 (prCellStr pr cw.1).length)
        (fun wl i => max wl (toString i).length)
        (fun i => prs.getD i default)
        ((List.range prs.length).reverse)
        (ghCols.map String.length, 0)).trans ?_
      rw [hbridge]
      rfl
    · exact hsnd ((List.range prs.length).reverse) (ghCols.map String.length, 0)
  have hbody := listMapM_eq_some
    (tablify_row toString bug_list_formatter (prDict prs) ghCols (prColWidths prs)
      ((List.range prs.length).reverse.foldl (fun a i => max a (toString i).length) 0)
      (spaces 2))
    (fun i => prLine (prColWidths prs) (prs.getD i default))
    ((List.range prs.length).reverse)
    (fun i hi => prDict_row prs _ _ (hmem i hi))
  have hcomp : ((List.range prs.length).reverse.map
      (fun i => prLine (prColWidths prs) (prs.getD i default))) =
      prs.reverse.map (prLine (prColWidths prs)) := by
    have hmm := congrArg (List.map (prLine (prColWidths prs))) hbridge
    rw [List.map_map] at hmm
    simpa [Function.comp_def] using hmm
  unfold prTableRows tablify_rows
  show (colsOf (prDict prs)
      (rowsOf pySortedNat (prDict prs) (some (prSortDesc (List.range prs.length))))
      (some ghCols)).bind
        (fun cols =>
          (tablify_widths toString (prDict prs)
              (rowsOf pySortedNat (prDict prs)
                (some (prSortDesc (List.range prs.length)))) cols).bind
            fun wp =>
              Option.map
                (fun body =>
                  (if false = true then
                    [tablify_header bug_list_formatter cols wp.1 wp.2 (spaces 2)]
                  else []) ++ body)
                (listMapM
                  (tablify_row toString bug_list_formatter (prDict prs) cols wp.1 wp.2
                    (spaces 2))
                  (rowsOf pySortedNat (prDict prs)
                    (some (prSortDesc (List.range prs.length)))))) =
      some (prs.reverse.map (prLine (prColWidths prs)))
  rw [hrows]
  rw [show colsOf (prDict prs) ((List.range prs.length).reverse) (some ghCols) =
    some ghCols from rfl]
  simp only [Option.some_bind]
  rw [hwidths]
  simp only [Option.some_bind]
  rw [hbody, Option.map_some', hcomp]
  rfl

/-- A successful group test appends the record exactly when the group's
predicate holds, and never reclassifies it. -/
theorem prGroupStep_some {s e : PyDate} {state : String}
    {wf : PR → Option String} {acc res : List PR} {pr : PR}
    (h : prGroupStep s e state wf acc pr = some res) :
    res = acc ++ (if grpPredB s e state wf pr then [pr] else []) := by
  unfold prGroupStep at h
  unfold grpPredB
  by_cases hst : pr.state = state
  · rw [if_pos hst] at h
    rcases hwf : wf pr with _ | ts
    · simp only [hwf] at h
      cases h
      simp [hst, hwf]
    · simp only [hwf] at h
      rcases hp : parseGhTime ts with _ | t
      · simp only [hp, Option.none_bind] at h
        exact Option.noConfusion h
      · simp only [hp, Option.some_bind] at h
        by_cases hr : (pydateLt t.date s || pydateLt e t.date) = true
        · rw [if_pos hr] at h
          cases h
          simp [hst, hwf, hp, hr]
        · rw [if_neg hr] at h
          cases h
          simp only [Bool.not_eq_true] at hr
          simp [hst, hwf, hp, hr]
  · rw [if_neg hst] at h
    cases h
    simp [hst]

/-- The classification fold appends to the accumulator exactly the records
passing each group's predicate, in response order. -/
theorem classify_fold (s e : PyDate) :
    ∀ (body : List PR) (acc res : List PR × List PR),
      listFoldlM (prClassifyStep s e) acc body = some res →
      res.1 = acc.1 ++ body.filter (grpPredB s e "open" fun p => p.created_at) ∧
        res.2 = acc.2 ++ body.filter (grpPredB s e "closed" fun p => p.closed_at) := by
  intro body
  induction body with
  | nil =>
      intro acc res h
      cases h
      simp
  | cons pr rest ih =>
      intro acc res h
      rw [listFoldlM] at h
      rcases hstep : prClassifyStep s e acc pr with _ | st2
      · rw [hstep] at h
        cases h
      · rw [hstep] at h
        obtain ⟨h1, h2⟩ := ih st2 res h
        unfold prClassifyStep at hstep
        rcases hop : prGroupStep s e "open" (fun p => p.created_at) acc.1 pr with _ | op
        · rw [hop] at hstep
          cases hstep
        · rw [hop, Option.some_bind] at hstep
          rcases hcl : prGroupStep s e "closed" (fun p => p.closed_at) acc.2 pr with _ | cl
          · rw [hcl] at hstep
            cases hstep
          · rw [hcl, Option.map_some'] at hstep
            cases hstep
            have ho := prGroupStep_some hop
            have hc := prGroupStep_some hcl
            constructor
            · rw [h1]
              show op ++ _ = _
              rw [ho, List.filter_cons, List.append_assoc]
              by_cases hp : grpPredB s e "open" (fun p => p.created_at) pr
              · simp [hp]
              · simp [hp]
            · rw [h2]
              show cl ++ _ = _
              rw [hc, List.filter_cons, List.append_assoc]
              by_cases hp : grpPredB s e "closed" (fun p => p.closed_at) pr
              · simp [hp]
              · simp [hp]

/-- C5: classification places a record in the Opened list exactly when its
state is open and its non-null created_at date lies in the window, in the
Completed list exactly when its state is closed and its non-null closed_at
date lies in the window, and drops records failing their group's range
check; in particular an open PR created 2024-01-10 under the window
2024-01-08..2024-01-14 is Opened, and the same record created 2024-01-01 is
dropped. -/
theorem github_pr_classification :
    (∀ (s e : PyDate) (body : List PR) (op cl : List PR),
        classifyPRs s e body = some (op, cl) →
        op = body.filter (openPredB s e) ∧ cl = body.filter (closedPredB s e)) ∧
    classifyPRs exWinStart exWinEnd [exPrIn] = some ([exPrIn], []) ∧
    classifyPRs exWinStart exWinEnd [exPrOut] = some ([], []) := by
  refine ⟨?_, by decide, by decide⟩
  intro s e body op cl h
  have hf := classify_fold s e body ([], []) (op, cl) h
  simpa [openPredB, closedPredB] using hf

/-- Witness for C5 at the Scenario 2 record: the classification result of
the single in-window open PR is exactly what the filter predicates say. -/
theorem github_pr_classification_witness :
    [exPrIn] = [exPrIn].filter (openPredB exWinStart exWinEnd) ∧
      ([] : List PR) = [exPrIn].filter (closedPredB exWinStart exWinEnd) :=
  github_pr_classification.1 exWinStart exWinEnd [exPrIn] [exPrIn] [] (by decide)

/-- One width-loop step only widens the accumulated widths, accounts for the
row name, and ends at least as wide as each of the row's cell texts. -/
theorem tablify_width_step_facts {κ : Type} {strK : κ → String}
    {d : PyDict κ PyRow} {cols : List String} {acc acc2 : List Nat × Nat} {r : κ}
    (h : tablify_width_step strK d cols acc r = some acc2)
    (hlen : acc.1.length = cols.length) :
    acc2.1.length = cols.length ∧
      (∀ i (ha : i < acc.1.length) (h2 : i < acc2.1.length),
        acc.1.get ⟨i, ha⟩ ≤ acc2.1.get ⟨i, h2⟩) ∧
      acc.2 ≤ acc2.2 ∧
      (strK r).length ≤ acc2.2 ∧
      (∀ rd, d.find r = some rd →
        ∀ i (hc : i < cols.length) (h2 : i < acc2.1.length) (v : PyVal),
          rd.find (cols.get ⟨i, hc⟩) = some v →
          (pyStr v).length ≤ acc2.1.get ⟨i, h2⟩) := by
  unfold tablify_width_step at h
  rcases hfind : d.find r with _ | rd
  · rw [hfind, Option.none_bind] at h
    exact Option.noConfusion h
  · rw [hfind, Option.some_bind] at h
    rcases hmm : listMapM (fun cw => (rd.find cw.1).map fun v => max cw.2 (pyStr v).length)
        (cols.zip acc.1) with _ | ws2
    · rw [hmm] at h
      exact Option.noConfusion h
    · rw [hmm, Option.map_some'] at h
      obtain ⟨hl, hpt⟩ := listMapM_some_facts hmm
      cases h
      have hzlen : (cols.zip acc.1).length = cols.length := by
        rw [List.length_zip, hlen]
        exact Nat.min_self _
      refine ⟨by rw [hl, hzlen], ?_, le_max_left _ _, le_max_right _ _, ?_⟩
      · intro i ha h2
        show acc.1.get ⟨i, ha⟩ ≤ ws2.get ⟨i, h2⟩
        have hiz : i < (cols.zip acc.1).length := by
          rw [List.length_zip]
          omega
        have hthis := hpt i hiz h2
        simp only [List.get_eq_getElem] at hthis ⊢
        rw [List.getElem_zip] at hthis
        rcases Option.map_eq_some'.mp hthis with ⟨v, hv, hmax⟩
        rw [← hmax]
        exact le_max_left _ _
      · intro rd' hrd' i hc h2 v hv
        obtain rfl : rd' = rd := (Option.some.inj hrd').symm
        show (pyStr v).length ≤ ws2.get ⟨i, h2⟩
        have hiz : i < (cols.zip acc.1).length := by
          rw [hzlen]
          exact hc
        have hthis := hpt i hiz h2
        simp only [List.get_eq_getElem] at hthis hv ⊢
        rw [List.getElem_zip] at hthis
        rcases Option.map_eq_some'.mp hthis with ⟨v', hv', hmax⟩
        obtain rfl : v' = v := Option.some.inj (hv'.symm.trans hv)
        rw [← hmax]
        exact le_max_right _ _

/-- The width fold only widens its accumulator and bounds every row name
and every cell text of the traversed rows. -/
theorem tablify_widths_fold {κ : Type} (strK : κ → String) (d : PyDict κ PyRow)
    (cols : List String) :
    ∀ (rows : List κ) (acc : List Nat × Nat) (ws : List Nat) (wlast : Nat),
      listFoldlM (tablify_width_step strK d cols) acc rows = some (ws, wlast) →
      acc.1.length = cols.length →
      ws.length = cols.length ∧
        (∀ i (ha : i < acc.1.length) (hw : i < ws.length),
          acc.1.get ⟨i, ha⟩ ≤ ws.get ⟨i, hw⟩) ∧
        acc.2 ≤ wlast ∧
        (∀ r ∈ rows, (strK r).length ≤ wlast) ∧
        (∀ r ∈ rows, ∀ rd, d.find r = some rd →
          ∀ i (hc : i < cols.length) (hw : i < ws.length), ∀ v,
            rd.find (cols.get ⟨i, hc⟩) = some v →
            (pyStr v).length ≤ ws.get ⟨i, hw⟩) := by
  intro rows
  induction rows with
  | nil =>
      intro acc ws wlast h hlen
      rw [listFoldlM] at h
      injection h with h'
      subst h'
      refine ⟨hlen, fun i ha hw => le_refl _, le_refl _, by simp, by simp⟩
  | cons r rest ih =>
      intro acc ws wlast h hlen
      rw [listFoldlM] at h
      rcases hstep : tablify_width_step strK d cols acc r with _ | acc2
      · rw [hstep] at h
        exact Option.noConfusion h
      · rw [hstep, Option.some_bind] at h
        obtain ⟨hsl, hsmono, hsw, hsr, hscell⟩ := tablify_width_step_facts hstep hlen
        obtain ⟨hl, hmono, hw2, hrest, hcell⟩ := ih acc2 ws wlast h hsl
        refine ⟨hl, ?_, le_trans hsw hw2, ?_, ?_⟩
        · intro i ha hwi
          have h2 : i < acc2.1.length := by
            rw [hsl]
            rw [hlen] at ha
            exact ha
          exact le_trans (hsmono i ha h2) (hmono i h2 hwi)
        · intro r' hr'
          rcases List.mem_cons.mp hr' with h' | h'
          · subst h'
            exact le_trans hsr hw2
          · exact hrest r' h'
        · intro r' hr' rd hrd i hc hwi v hv
          rcases List.mem_cons.mp hr' with h' | h'
          · subst h'
            have h2 : i < acc2.1.length := by
              rw [hsl]
              exact hc
            exact le_trans (hscell rd hrd i hc h2 v hv) (hmono i h2 hwi)
          · exact hcell r' h' rd hrd i hc hwi v hv

/-- C1: whenever tablify_dict's width computation accepts its input, every
per-column width is at least the column's header label length and at least
the text length of every cell of that column over the rendered rows, and
the implicit row-key column's width is at least the text length of every
row key: no cell is ever truncated. -/
theorem tablify_widths_no_truncation :
    ∀ {κ : Type} (strK : κ → String) (d : PyDict κ PyRow)
      (rows : List κ) (cols : List String) (ws : List Nat) (wlast : Nat),
      tablify_widths strK d rows cols = some (ws, wlast) →
      ws.length = cols.length ∧
        (∀ i (hc : i < cols.length) (hw : i < ws.length),
          (cols.get ⟨i, hc⟩).length ≤ ws.get ⟨i, hw⟩) ∧
        (∀ r ∈ rows, (strK r).length ≤ wlast) ∧
        (∀ r ∈ rows, ∀ rd, d.find r = some rd →
          ∀ i (hc : i < cols.length) (hw : i < ws.length), ∀ v,
            rd.find (cols.get ⟨i, hc⟩) = some v →
            (pyStr v).length ≤ ws.get ⟨i, hw⟩) := by
  intro κ strK d rows cols ws wlast h
  have hinit : ((cols.map String.length, 0) : List Nat × Nat).1.length = cols.length := by
    simp
  obtain ⟨hl, hmono, hz, hr, hcell⟩ :=
    tablify_widths_fold strK d cols rows (cols.map String.length, 0) ws wlast h hinit
  refine ⟨hl, ?_, hr, hcell⟩
  intro i hc hw
  have ha : i < ((cols.map String.length, 0) : List Nat × Nat).1.length := by
    simpa using hc
  have hthis := hmono i ha hw
  simpa [List.get_eq_getElem, List.getElem_map] using hthis

/-- Witness for C1 on a one-row, one-column table whose only cell is the
three-character string abc under row key r. -/
theorem tablify_widths_no_truncation_witness :
    ([3] : List Nat).length = (["c"] : List String).length ∧
      (∀ i (hc : i < (["c"] : List String).length) (hw : i < ([3] : List Nat).length),
        ((["c"] : List String).get ⟨i, hc⟩).length ≤ ([3] : List Nat).get ⟨i, hw⟩) ∧
      (∀ r ∈ (["r"] : List String), (id r).length ≤ 1) ∧
      (∀ r ∈ (["r"] : List String), ∀ rd, exTableSmall.find r = some rd →
        ∀ i (hc : i < (["c"] : List String).length) (hw : i < ([3] : List Nat).length),
          ∀ v, rd.find ((["c"] : List String).get ⟨i, hc⟩) = some v →
            (pyStr v).length ≤ ([3] : List Nat).get ⟨i, hw⟩) :=
  tablify_widths_no_truncation id exTableSmall ["r"] ["c"] [3] 1 (by decide)

/-- Joining newline-free parts with newlines leaves one newline fewer than
there are parts. -/
theorem pyJoin_newline_count :
    ∀ parts : List String, (∀ l ∈ parts, l.data.count '\n' = 0) →
      (pyJoin "\n" parts).data.count '\n' = parts.length - 1 := by
  intro parts
  induction parts with
  | nil => intro h; rfl
  | cons x xs ih =>
      intro h
      cases xs with
      | nil => simpa using h x (by simp)
      | cons y ys =>
          rw [pyJoin, String.data_append, String.data_append,
            List.count_append, List.count_append]
          have hx : x.data.count '\n' = 0 := h x (by simp)
          have hn : ("\n" : String).data.count '\n' = 1 := rfl
          have hr := ih fun l hl => h l (by simp [hl])
          rw [hx, hn, hr]
          simp only [List.length_cons]
          omega

/-- A successfully rendered table has one line per row plus the header. -/
theorem tablify_rows_length {κ : Type} {strK : κ → String}
    {sortK : List κ → List κ} {d : PyDict κ PyRow} {sh : Bool}
    {fmt : Option Fmt} {ro : Option (List κ)} {co : Option (List String)}
    {p : Nat} {tbl : List String}
    (h : tablify_rows strK sortK d sh fmt ro co p = some tbl) :
    tbl.length = (rowsOf sortK d ro).length + (if sh then 1 else 0) := by
  simp only [tablify_rows] at h
  rcases hco : colsOf d (rowsOf sortK d ro) co with _ | cols
  · rw [hco, Option.none_bind] at h
    exact Option.noConfusion h
  · simp only [hco, Option.some_bind] at h
    rcases hwp : tablify_widths strK d (rowsOf sortK d ro) cols with _ | wp
    · rw [hwp, Option.none_bind] at h
      exact Option.noConfusion h
    · simp only [hwp, Option.some_bind] at h
      rcases hb : listMapM (tablify_row strK (fmt.getD default_field_formatter) d cols
          wp.1 wp.2 (spaces p)) (rowsOf sortK d ro) with _ | body
      · rw [hb] at h
        exact Option.noConfusion h
      · simp only [hb, Option.map_some'] at h
        obtain ⟨hlen, hpt⟩ := listMapM_some_facts hb
        cases h
        cases sh
        · simpa using hlen
        · simp only [List.length_append, hlen]
          simp
          omega

/-- C10 counterexample: with no rows, no header and an explicit column
order, tablify_dict returns the empty string, which still splits into one
(empty) line even though len(rows) is 0. -/
theorem tablify_line_count_cex :
    tablify_dict id pySortedStr emptyRowDict false none (some []) (some ["a"]) 1 =
        some "" ∧
      ("" : String).data.count '\n' + 1 = 1 ∧
      (rowsOf pySortedStr emptyRowDict (some [])).length = 0 :=
  ⟨rfl, rfl, rfl⟩

/-- C10 (amended): on every call on which tablify_dict returns, with every
rendered line free of newlines, the returned string is the newline-join of
the line list and splits on newline into exactly len(rows) lines (plus one
for the header when shown), except that the degenerate empty table (no
rows, no header) still splits into one empty line: the count is
max(len(rows) + header, 1). -/
theorem tablify_line_count :
    ∀ {κ : Type} (strK : κ → String) (sortK : List κ → List κ)
      (d : PyDict κ PyRow) (sh : Bool) (fmt : Option Fmt)
      (ro : Option (List κ)) (co : Option (List String)) (p : Nat)
      (tbl : List String),
      tablify_rows strK sortK d sh fmt ro co p = some tbl →
      (∀ l ∈ tbl, l.data.count '\n' = 0) →
      tablify_dict strK sortK d sh fmt ro co p = some (pyJoin "\n" tbl) ∧
        (pyJoin "\n" tbl).data.count '\n' + 1 =
          max ((rowsOf sortK d ro).length + (if sh then 1 else 0)) 1 := by
  intro κ strK sortK d sh fmt ro co p tbl h hnl
  constructor
  · unfold tablify_dict
    rw [h, Option.map_some']
  · rw [pyJoin_newline_count tbl hnl, tablify_rows_length h]
    omega

/-- Witness for C10 on a one-row headerless table: one rendered line, one
split line. -/
theorem tablify_line_count_witness :
    tablify_dict id pySortedStr exTableSmall false none (some ["r"]) (some ["c"]) 1 =
        some (pyJoin "\n" ["r abc"]) ∧
      (pyJoin "\n" ["r abc"]).data.count '\n' + 1 =
        max ((rowsOf pySortedStr exTableSmall (some ["r"])).length +
          (if false then 1 else 0)) 1 :=
  tablify_line_count id pySortedStr exTableSmall false none (some ["r"]) (some ["c"]) 1
    ["r abc"] (by decide) (by decide)

end WeeklySummary
